import Mathlib

/-!
Shallow embedding of `src/shelf_tag_test/extract_shelf_tags.py`.

Pure functions of the script become Lean functions.  External effects are
parameters: `parse` stands for `json.loads` (returning `none` on a
`JSONDecodeError`), `net url attempt` stands for the outcome of the
`attempt`-th HTTP request for `url` inside `download_bytes` (`none` = a
network/protocol error), and `zipMembers` stands for `zipfile`'s member
list for given archive bytes (`.error` = `BadZipFile`).  File writes are
observed as returned lists: the images written and the metadata lines
appended, in order.  Python exceptions raised by the script itself
(`AttributeError` from calling `.strip()`/`.get` on a non-string/non-dict)
are modelled with `Except`.  JSON numbers are modelled as integers; float
payloads and unicode-whitespace subtleties are outside the model.
-/

namespace ShelfTags

/-- Raw file contents (zip payloads, image bytes) are lists of byte values. -/
abbrev Bytes := List Nat

/-- Values produced by `json.loads`: null, booleans, numbers (restricted to
integers here), strings, arrays and objects. -/
inductive Json where
  | null
  | bool (b : Bool)
  | num (n : Int)
  | str (s : String)
  | arr (elems : List Json)
  | obj (fields : List (String × Json))

/-- Python truthiness of a JSON-decoded value (`bool(x)`). -/
def pyTruthy : Json → Bool
  | .null => false
  | .bool b => b
  | .num n => decide (n ≠ 0)
  | .str s => decide (s ≠ "")
  | .arr l => !l.isEmpty
  | .obj kvs => !kvs.isEmpty

/-- ASCII whitespace as recognised by `str.strip` / `\s`. -/
def pyIsSpace (c : Char) : Bool :=
  c == ' ' || c == '\t' || c == '\n' || c == '\r' || c == '\u000B' || c == '\u000C'

/-- Drop leading and trailing whitespace from a character list. -/
def pyStripChars (cs : List Char) : List Char :=
  ((cs.dropWhile pyIsSpace).reverse.dropWhile pyIsSpace).reverse

/-- Python's `str.strip()` (ASCII whitespace). -/
def pyStrip (s : String) : String :=
  String.mk (pyStripChars s.data)

/-- Little-endian decimal digits of `n`, with explicit fuel (`fuel ≥ n`
suffices); structural recursion so that it evaluates by `decide`/`rfl`. -/
def decimalDigitsAux : Nat → Nat → List Nat
  | _, 0 => []
  | 0, _ + 1 => []
  | fuel + 1, n + 1 => ((n + 1) % 10) :: decimalDigitsAux fuel ((n + 1) / 10)

/-- Little-endian decimal digits of `n` (empty for `0`). -/
def decimalDigits (n : Nat) : List Nat :=
  decimalDigitsAux n n

/-- Decimal character rendering of a natural number. -/
def natDecimalChars (n : Nat) : List Char :=
  if n = 0 then ['0'] else ((decimalDigits n).map Nat.digitChar).reverse

/-- Decimal character rendering of an integer, with a leading minus sign
for negative values. -/
def intDecimalChars : Int → List Char
  | Int.ofNat m => natDecimalChars m
  | Int.negSucc m => '-' :: natDecimalChars (m + 1)

/-- Decimal rendering of a Python int, as produced by `str()` and f-strings. -/
def pyIntStr (n : Int) : String :=
  String.mk (intDecimalChars n)

mutual

/-- Python's `repr` of a JSON-decoded value (quote-escaping inside strings
is not modelled; no claim depends on it). -/
def pyRepr : Json → String
  | .null => "None"
  | .bool true => "True"
  | .bool false => "False"
  | .num n => pyIntStr n
  | .str s => String.singleton (Char.ofNat 39) ++ s ++ String.singleton (Char.ofNat 39)
  | .arr l => "[" ++ String.intercalate ", " (pyReprList l) ++ "]"
  | .obj kvs => "\x7b" ++ String.intercalate ", " (pyReprFields kvs) ++ "\x7d"

/-- `repr` of each element of a JSON array. -/
def pyReprList : List Json → List String
  | [] => []
  | j :: js => pyRepr j :: pyReprList js

/-- `repr` of each `key: value` pair of a JSON object. -/
def pyReprFields : List (String × Json) → List String
  | [] => []
  | (k, v) :: rest =>
    (String.singleton (Char.ofNat 39) ++ k ++ String.singleton (Char.ofNat 39) ++ ": "
      ++ pyRepr v) :: pyReprFields rest

end

/-- Python's `str()` of a JSON-decoded value. -/
def pyStr : Json → String
  | .str s => s
  | j => pyRepr j

/-- Source `is_all_zeros`: `re.fullmatch(r"0+", s)`. -/
def is_all_zeros (s : String) : Bool :=
  !s.data.isEmpty && s.data.all (fun c => c == '0')

/-- Value of a run of decimal digit characters (Python `int()` on the
matched group). -/
def digitsToNat (cs : List Char) : Nat :=
  cs.foldl (fun acc c => acc * 10 + (c.toNat - 48)) 0

/-- Source `parse_int_suffix_from_filename`: `re.search(r"(\d+)(?=\.[^.]+$)")`,
i.e. the maximal run of digits immediately preceding the final
`.<extension>` suffix (the last `.` must be followed by at least one
non-`.` character). -/
def parse_int_suffix_from_filename (s : String) : Option Nat :=
  let rcs := s.data.reverse
  let ext := rcs.takeWhile (fun c => c != '.')
  if ext.length = rcs.length then none
  else if ext.isEmpty then none
  else
    let digs := ((rcs.drop ext.length).drop 1).takeWhile Char.isDigit
    if digs.isEmpty then none
    else some (digitsToNat digs.reverse)

/-- Source `normalize_field_name`: `re.sub(r"\s+", "", name)`. -/
def normalize_field_name (name : String) : String :=
  String.mk (name.data.filter (fun c => !pyIsSpace c))

/-- Source `get_field_value`: exact key lookup first, then the first key
whose whitespace-normalised form matches. -/
def get_field_value (row : List (String × String)) (desired_field : String) : Option String :=
  match row.lookup desired_field with
  | some v => some v
  | none =>
    match row.find? (fun kv => normalize_field_name kv.1 == normalize_field_name desired_field) with
    | some kv => some kv.2
    | none => none

/-- Source `safe_json_loads`: `None` input and blank text give `None`;
a `JSONDecodeError` (modelled by `parse` returning `none`) is swallowed. -/
def safe_json_loads (parse : String → Option Json) (text : Option String) : Option Json :=
  match text with
  | none => none
  | some t =>
    let t2 := pyStrip t
    if t2 = "" then none else parse t2

/-- Default `max_retries` of `download_bytes`. -/
def download_default_retries : Nat := 3

/-- Retry loop of `download_bytes`: first component is the returned value,
second the backoff sleeps (`min(2^attempt, 10)`) performed after each
failed attempt, in order. -/
def download_loop (net : Nat → Option Bytes) : Nat → Nat → Option Bytes × List Nat
  | _, 0 => (none, [])
  | attempt, remaining + 1 =>
    match net attempt with
    | some b => (some b, [])
    | none =>
      ((download_loop net (attempt + 1) remaining).1,
        min (2 ^ attempt) 10 :: (download_loop net (attempt + 1) remaining).2)

/-- Source `download_bytes` for one URL: `net attempt` is the outcome of the
`attempt`-th HTTP request (`none` = network/protocol error). -/
def download_bytes (net : Nat → Option Bytes) (max_retries : Nat) : Option Bytes × List Nat :=
  download_loop net 1 max_retries

/-- Number of HTTP attempts a `download_bytes` outcome represents: one per
backoff sleep plus the final successful one, if any. -/
def attempts_made (d : Option Bytes × List Nat) : Nat :=
  d.2.length + (if d.1.isSome then 1 else 0)

/-- Python-dict insertion on an association list: overwrite in place if the
key exists (keeping its position), else append. -/
def dictInsert {β : Type} (m : List (String × β)) (k : String) (v : β) : List (String × β) :=
  if m.any (fun kv => kv.1 == k) then
    m.map (fun kv => if kv.1 == k then (k, v) else kv)
  else m ++ [(k, v)]

/-- `os.path.basename`: the part after the last `/`. -/
def basename (p : String) : String :=
  String.mk ((p.data.reverse.takeWhile (fun c => c != '/')).reverse)

/-- Exceptions the script can raise while processing a row. -/
inductive PyError where
  | attributeError (method : String)
  | badZipFile
deriving Repr, DecidableEq

/-- Source `extract_zip_entries`: decode the archive (`zipMembers`, which can
fail like `zipfile.BadZipFile`), then map each member's base filename to its
bytes, later members overwriting earlier ones. -/
def extract_zip_entries (zipMembers : Bytes → Except PyError (List (String × Bytes)))
    (zip_bytes : Bytes) : Except PyError (List (String × Bytes)) :=
  match zipMembers zip_bytes with
  | .error e => .error e
  | .ok ms => .ok (ms.foldl (fun acc m => dictInsert acc (basename m.1) m.2) [])

/-- Barcode/source pair kept for one filename. -/
structure Meta where
  barcode : String
  source : String
deriving Repr, DecidableEq

/-- Source lines 136-139: `uploaded = obj.get('uploaded_image') or {}` then
`filename = (uploaded.get('image_filename') or '').strip()`.  `.get` on a
truthy non-dict and `.strip()` on a truthy non-string raise `AttributeError`. -/
def item_filename (fields : List (String × Json)) : Except PyError String :=
  match (match fields.lookup "uploaded_image" with
         | none => Json.obj []
         | some v => if pyTruthy v then v else Json.obj []) with
  | Json.obj ufields =>
    match ufields.lookup "image_filename" with
    | none => Except.ok ""
    | some v =>
      if pyTruthy v then
        match v with
        | Json.str s => Except.ok (pyStrip s)
        | _ => Except.error (PyError.attributeError "strip")
      else Except.ok ""
  | _ => Except.error (PyError.attributeError "get")

/-- Source lines 140-141: `('' if barcode_raw in (None, 'null') else
str(barcode_raw)).strip()` (a missing key and a JSON null both give Python
`None`). -/
def item_barcode (fields : List (String × Json)) : String :=
  match fields.lookup "barcode" with
  | none => ""
  | some Json.null => ""
  | some (Json.str s) => if s = "null" then "" else pyStrip s
  | some v => pyStrip (pyStr v)

/-- Source lines 145-146: `(source_raw if source_raw not in (None, 'null')
else '').strip()`; `.strip()` on a non-null non-string raises. -/
def item_source (fields : List (String × Json)) : Except PyError String :=
  match fields.lookup "barcode_detection_source" with
  | none => Except.ok ""
  | some Json.null => Except.ok ""
  | some (Json.str s) => Except.ok (if s = "null" then "" else pyStrip s)
  | some _ => Except.error (PyError.attributeError "strip")

/-- One iteration of the metadata-matching loop of `process_shelf_tags_row`
(source lines 133-147): non-dict items are skipped, as are items with a
blank filename or with a missing/empty/all-zero barcode. -/
def match_item (m : List (String × Meta)) (j : Json) : Except PyError (List (String × Meta)) :=
  match j with
  | Json.obj fields =>
    match item_filename fields with
    | .error e => .error e
    | .ok filename =>
      if filename = "" then .ok m
      else if item_barcode fields = "" then .ok m
      else if is_all_zeros (item_barcode fields) then .ok m
      else
        match item_source fields with
        | .error e => .error e
        | .ok source => .ok (dictInsert m filename ⟨item_barcode fields, source⟩)
  | _ => .ok m

/-- The `filename -> (barcode, source)` mapping built by the matching loop. -/
def build_filename_to_meta (items : List Json) : Except PyError (List (String × Meta)) :=
  items.foldlM match_item []

/-- Source `sort_key`: numeric suffix if present, else the sentinel `10 ** 9`,
then the filename itself. -/
def sort_key (name : String) : Nat × String :=
  ((parse_int_suffix_from_filename name).getD (10 ^ 9), name)

/-- Python's `<=` on strings: lexicographic comparison of code points. -/
def pyCharsLE : List Char → List Char → Bool
  | [], _ => true
  | _ :: _, [] => false
  | a :: arest, b :: brest =>
    if a.toNat < b.toNat then true
    else if a.toNat = b.toNat then pyCharsLE arest brest
    else false

/-- Python's `<=` on strings. -/
def pyStrLE (a b : String) : Bool := pyCharsLE a.data b.data

/-- Python's `<=` on `(int, str)` key tuples (lexicographic). -/
def keyLE (a b : Nat × String) : Bool :=
  decide (a.1 < b.1) || (decide (a.1 = b.1) && pyStrLE a.2 b.2)

/-- Ordering of filenames by their sort key. -/
def nameLE (a b : String) : Prop :=
  keyLE (sort_key a) (sort_key b) = true

instance : DecidableRel nameLE :=
  fun _ _ => inferInstanceAs (Decidable (_ = true))

/-- `sorted(filename_to_meta.keys(), key=sort_key)`: the key is injective
(its second component is the name itself), so any stable sort — CPython's
included — produces this list. -/
def sorted_filenames (names : List String) : List String :=
  List.insertionSort nameLE names

/-- One image actually written by the row loop: its source filename in the
archive, the output name `"<counter>.heif"`, the bytes written, and the
barcode/source whose line `"<barcode>, <source>\n"` was appended. -/
structure Saved where
  filename : String
  imageName : String
  content : Bytes
  barcode : String
  source : String
deriving Repr, DecidableEq

/-- Result of one `process_shelf_tags_row` call: the returned counter and
the images saved (each paired with its appended metadata line), in order. -/
structure RowResult where
  counterEnd : Int
  saved : List Saved
deriving Repr, DecidableEq

/-- Output filename `f"{counter}.heif"`. -/
def numName (n : Int) : String := pyIntStr n ++ ".heif"

/-- The write loop of `process_shelf_tags_row` (source lines 156-171):
filenames missing from the archive are skipped; otherwise the counter is
incremented, the image saved under `"<counter>.heif"` and one metadata
line appended. -/
def write_images (entries : List (String × Bytes)) (fmeta : List (String × Meta)) :
    List String → Int → Int × List Saved
  | [], counter => (counter, [])
  | f :: rest, counter =>
    match entries.lookup f with
    | none => write_images entries fmeta rest counter
    | some bytes =>
      ((write_images entries fmeta rest (counter + 1)).1,
        ⟨f, numName (counter + 1), bytes, ((fmeta.lookup f).getD ⟨"", ""⟩).barcode,
          ((fmeta.lookup f).getD ⟨"", ""⟩).source⟩
        :: (write_images entries fmeta rest (counter + 1)).2)

/-- Image files written in a row result, as `(output name, bytes)` pairs. -/
def RowResult.images (r : RowResult) : List (String × Bytes) :=
  r.saved.map (fun v => (v.imageName, v.content))

/-- Metadata lines appended in a row result, in append order. -/
def RowResult.lines (r : RowResult) : List String :=
  r.saved.map (fun v => v.barcode ++ ", " ++ v.source ++ "\n")

/-- Body of `process_shelf_tags_row` after field resolution and JSON
parsing: the guard cascade of source lines 114-129, then matching,
sorting and the write loop. -/
def process_row_items (zipMembers : Bytes → Except PyError (List (String × Bytes)))
    (net : String → Nat → Option Bytes)
    (zip_url : String) (items : Option Json) (image_counter_start : Int) :
    Except PyError RowResult :=
  if zip_url = "" then .ok ⟨image_counter_start, []⟩
  else
    match items with
    | some (Json.arr its) =>
      if its.isEmpty then .ok ⟨image_counter_start, []⟩
      else
        match (download_bytes (net zip_url) download_default_retries).1 with
        | none => .ok ⟨image_counter_start, []⟩
        | some zip_bytes =>
          if zip_bytes.isEmpty then .ok ⟨image_counter_start, []⟩
          else
            match extract_zip_entries zipMembers zip_bytes with
            | .error e => .error e
            | .ok zip_entries =>
              if zip_entries.isEmpty then .ok ⟨image_counter_start, []⟩
              else
                match build_filename_to_meta its with
                | .error e => .error e
                | .ok fmeta =>
                  .ok ⟨(write_images zip_entries fmeta
                          (sorted_filenames (fmeta.map (fun kv => kv.1))) image_counter_start).1,
                       (write_images zip_entries fmeta
                          (sorted_filenames (fmeta.map (fun kv => kv.1))) image_counter_start).2⟩
    | _ => .ok ⟨image_counter_start, []⟩

/-- Source line 110: `zip_url = (get_field_value(row, zip_url_field) or '').strip()`. -/
def row_zip_url (row : List (String × String)) (zip_url_field : String) : String :=
  pyStrip ((get_field_value row zip_url_field).getD "")

/-- Source `process_shelf_tags_row`: resolve the zip URL and JSON blob from
the row, parse tolerantly, then run the row body. -/
def process_shelf_tags_row (parse : String → Option Json)
    (zipMembers : Bytes → Except PyError (List (String × Bytes)))
    (net : String → Nat → Option Bytes)
    (row : List (String × String)) (zip_url_field json_field : String)
    (image_counter_start : Int) : Except PyError RowResult :=
  process_row_items zipMembers net
    (row_zip_url row zip_url_field)
    (safe_json_loads parse (get_field_value row json_field))
    image_counter_start

/-- The row loop of `main` (source lines 198-212): rows beyond a non-zero
`limit` stop the loop; a row whose processing raises is logged with its
index and leaves counter and processed count unchanged.  Returns the final
counter, all images written, and the logged `(row index, error)` pairs. -/
def run_rows (proc : List (String × String) → Int → Except PyError RowResult) (limit : Int) :
    List (List (String × String)) → Nat → Nat → Int → Int × List Saved × List (Nat × PyError)
  | [], _, _, counter => (counter, [], [])
  | row :: rest, idx, processed, counter =>
    if limit ≠ 0 ∧ limit ≤ (processed : Int) then (counter, [], [])
    else
      match proc row counter with
      | .ok r =>
        ((run_rows proc limit rest (idx + 1) (processed + 1) r.counterEnd).1,
         r.saved ++ (run_rows proc limit rest (idx + 1) (processed + 1) r.counterEnd).2.1,
         (run_rows proc limit rest (idx + 1) (processed + 1) r.counterEnd).2.2)
      | .error e =>
        ((run_rows proc limit rest (idx + 1) processed counter).1,
         (run_rows proc limit rest (idx + 1) processed counter).2.1,
         (idx, e) :: (run_rows proc limit rest (idx + 1) processed counter).2.2)

/-- The whole pipeline of `main`: iterate the manifest rows through
`process_shelf_tags_row` starting from the configured counter. -/
def run_pipeline (parse : String → Option Json)
    (zipMembers : Bytes → Except PyError (List (String × Bytes)))
    (net : String → Nat → Option Bytes)
    (rows : List (List (String × String))) (zip_url_field json_field : String)
    (limit : Int) (start : Int) : Int × List Saved × List (Nat × PyError) :=
  run_rows (fun row c => process_shelf_tags_row parse zipMembers net row zip_url_field json_field c)
    limit rows 0 0 start

/-! ### Helper facts about the download retry loop -/

theorem download_loop_attempts_le (net : Nat → Option Bytes) :
    ∀ (r a : Nat), (download_loop net a r).2.length
      + (if (download_loop net a r).1.isSome then 1 else 0) ≤ r := by
  intro r
  induction r with
  | zero => intro a; simp [download_loop]
  | succ n ih =>
    intro a
    cases hna : net a with
    | some b => simp [download_loop, hna]
    | none =>
      simp only [download_loop, hna, List.length_cons]
      have := ih (a + 1)
      omega

theorem download_loop_first_success (net : Nat → Option Bytes) :
    ∀ (r a k : Nat) (b : Bytes), a ≤ k → k < a + r → net k = some b →
      (∀ j, a ≤ j → j < k → net j = none) → (download_loop net a r).1 = some b := by
  intro r
  induction r with
  | zero => intro a k b h1 h2 _ _; omega
  | succ n ih =>
    intro a k b hak hkr hk hnone
    simp only [download_loop]
    rcases Nat.eq_or_lt_of_le hak with heq | hlt
    · subst heq
      rw [hk]
    · have hna : net a = none := hnone a (Nat.le_refl a) hlt
      rw [hna]
      exact ih (a + 1) k b hlt (by omega) hk (fun j hj1 hj2 => hnone j (by omega) hj2)

theorem download_loop_all_fail (net : Nat → Option Bytes) :
    ∀ (r a : Nat), (∀ j, a ≤ j → j < a + r → net j = none) →
      download_loop net a r = (none, (List.range r).map (fun i => min (2 ^ (a + i)) 10)) := by
  intro r
  induction r with
  | zero => intro a _; simp [download_loop]
  | succ n ih =>
    intro a h
    simp only [download_loop]
    rw [h a (by omega) (by omega),
      ih (a + 1) (fun j h1 h2 => h j (by omega) (by omega))]
    have hr : (List.range (n + 1)).map (fun i => min (2 ^ (a + i)) 10)
        = min (2 ^ a) 10 :: (List.range n).map (fun i => min (2 ^ (a + 1 + i)) 10) := by
      rw [List.range_succ_eq_map, List.map_cons, List.map_map]
      simp only [Nat.add_zero]
      congr 1
      exact List.map_congr_left fun x _ => by
        simp only [Function.comp_apply]
        congr 2
        omega
    rw [hr]

/-- C6: `download_bytes` makes at most `max_retries` attempts (default 3),
returns the bytes of the first succeeding attempt, and when every attempt
fails it sleeps `min(2^attempt, 10)` after each failed attempt and returns
`none` instead of raising. -/
theorem c6_download_retry_policy (net : Nat → Option Bytes) (max_retries : Nat) :
    download_default_retries = 3 ∧
    attempts_made (download_bytes net max_retries) ≤ max_retries ∧
    (∀ k b, 1 ≤ k → k ≤ max_retries → net k = some b →
      (∀ j, 1 ≤ j → j < k → net j = none) →
      (download_bytes net max_retries).1 = some b) ∧
    ((∀ j, 1 ≤ j → j ≤ max_retries → net j = none) →
      download_bytes net max_retries
        = (none, (List.range max_retries).map (fun i => min (2 ^ (i + 1)) 10))) := by
  refine ⟨rfl, ?_, ?_, ?_⟩
  · exact download_loop_attempts_le net max_retries 1
  · intro k b h1 h2 hk hnone
    exact download_loop_first_success net max_retries 1 k b h1 (by omega) hk hnone
  · intro h
    rw [download_bytes, download_loop_all_fail net max_retries 1
      (fun j h1 h2 => h j h1 (by omega))]
    simp only [Prod.mk.injEq, true_and]
    exact List.map_congr_left fun x _ => by congr 2; omega

/-- Witness for C6: with success on attempt 2 the second attempt's bytes are
returned, and with all three default attempts failing the loop sleeps
2, 4, 8 seconds and returns `none`. -/
theorem c6_download_retry_policy_witness :
    (download_bytes (fun a => if a = 2 then some [9] else none) 3).1 = some [9] ∧
    download_bytes (fun _ => none) 3 = (none, [2, 4, 8]) := by
  constructor
  · exact (c6_download_retry_policy (fun a => if a = 2 then some [9] else none) 3).2.2.1 2 [9]
      (by omega) (by omega) (by simp)
      (fun j hj1 hj2 => by
        have : j = 1 := by omega
        subst this
        simp)
  · rw [(c6_download_retry_policy (fun _ => none) 3).2.2.2 (fun _ _ _ => rfl)]
    decide

/-! ### C7: whitespace-tolerant field lookup -/

theorem find?_pre_skip {α : Type} (p : α → Bool) :
    ∀ (pre : List α) (x : α) (post : List α), (∀ a ∈ pre, p a = false) → p x = true →
      List.find? p (pre ++ x :: post) = some x := by
  intro pre
  induction pre with
  | nil => intro x post _ hx; simp [List.find?_cons, hx]
  | cons a pre ih =>
    intro x post hpre hx
    have ha : p a = false := hpre a (List.mem_cons_self a pre)
    simp only [List.cons_append, List.find?_cons, ha]
    exact ih x post (fun b hb => hpre b (List.mem_cons_of_mem a hb)) hx

/-- C7: field lookup returns the value under the exact key when present;
otherwise the value of the first row key whose whitespace-stripped form
equals the whitespace-stripped target; otherwise `none`. -/
theorem c7_field_lookup (row : List (String × String)) (field : String) :
    (∀ v, row.lookup field = some v → get_field_value row field = some v) ∧
    (∀ pre k v post, row.lookup field = none →
      row = pre ++ (k, v) :: post →
      normalize_field_name k = normalize_field_name field →
      (∀ kv ∈ pre, normalize_field_name kv.1 ≠ normalize_field_name field) →
      get_field_value row field = some v) ∧
    (row.lookup field = none →
      (∀ kv ∈ row, normalize_field_name kv.1 ≠ normalize_field_name field) →
      get_field_value row field = none) := by
  refine ⟨?_, ?_, ?_⟩
  · intro v hv
    unfold get_field_value
    rw [hv]
  · intro pre k v post h0 hrow hk hpre
    unfold get_field_value
    rw [h0, hrow]
    rw [find?_pre_skip _ pre (k, v) post
      (fun kv hkv => by
        simp only [beq_eq_false_iff_ne, ne_eq]
        exact hpre kv hkv)
      (by simp only [beq_iff_eq]; exact hk)]
  · intro h0 hall
    unfold get_field_value
    rw [h0]
    rw [List.find?_eq_none.mpr (fun kv hkv => by
      simp only [beq_iff_eq]
      exact hall kv hkv)]

/-- Witness for C7: exact match wins, else first whitespace-normalised
match, else `none`. -/
theorem c7_field_lookup_witness :
    get_field_value [("A", "1"), (" F ", "2"), ("F", "3")] "F" = some "3" ∧
    get_field_value [("A", "1"), (" F ", "2")] "F" = some "2" ∧
    get_field_value [("A", "1")] "F" = none := by
  refine ⟨(c7_field_lookup _ "F").1 "3" (by decide), ?_, ?_⟩
  · exact (c7_field_lookup _ "F").2.1 [("A", "1")] " F " "2" [] (by decide) rfl (by decide)
      (fun kv hkv => by
        simp only [List.mem_singleton] at hkv
        subst hkv
        decide)
  · exact (c7_field_lookup _ "F").2.2 (by decide)
      (fun kv hkv => by
        simp only [List.mem_singleton] at hkv
        subst hkv
        decide)

/-! ### C9: driver isolates per-row failures -/

/-- C9: an exception raised while processing one row is caught at the driver
boundary, logged with the row index, and processing continues with the next
row from the counter value of before the failed row (and an unchanged
processed-row count). -/
theorem c9_row_error_isolated (proc : List (String × String) → Int → Except PyError RowResult)
    (limit : Int) (rest : List (List (String × String))) (idx processed : Nat) (counter : Int)
    (row : List (String × String)) (e : PyError)
    (hlim : ¬(limit ≠ 0 ∧ limit ≤ (processed : Int)))
    (herr : proc row counter = .error e) :
    run_rows proc limit (row :: rest) idx processed counter =
      ((run_rows proc limit rest (idx + 1) processed counter).1,
       (run_rows proc limit rest (idx + 1) processed counter).2.1,
       (idx, e) :: (run_rows proc limit rest (idx + 1) processed counter).2.2) := by
  simp only [run_rows, if_neg hlim]
  rw [herr]

/-- Witness for C9: a single always-raising row leaves the counter at its
initial value 5 and is logged at index 0. -/
theorem c9_row_error_isolated_witness :
    run_rows (fun _ _ => Except.error PyError.badZipFile) 0 [[("a", "b")]] 0 0 5
      = (5, [], [(0, PyError.badZipFile)]) := by
  rw [c9_row_error_isolated (fun _ _ => Except.error PyError.badZipFile) 0 [] 0 0 5
    [("a", "b")] PyError.badZipFile (by simp) rfl]
  rfl

/-! ### C4: invalid or empty JSON metadata skips the row -/

/-- C4: whenever the row's JSON cell does not yield a non-empty JSON list
(missing cell, blank text, unparseable text, `[]`, or any non-list value),
the row processor returns the starting counter with no images written and
no metadata lines appended, and no exception escapes. -/
theorem c4_bad_json_skips (parse : String → Option Json)
    (zipMembers : Bytes → Except PyError (List (String × Bytes)))
    (net : String → Nat → Option Bytes)
    (row : List (String × String)) (zf jf : String) (s : Int)
    (h : ∀ l, safe_json_loads parse (get_field_value row jf) = some (Json.arr l) → l = []) :
    process_shelf_tags_row parse zipMembers net row zf jf s = .ok ⟨s, []⟩ := by
  unfold process_shelf_tags_row process_row_items
  by_cases hz : row_zip_url row zf = ""
  · rw [if_pos hz]
  · rw [if_neg hz]
    cases hit : safe_json_loads parse (get_field_value row jf) with
    | none => rfl
    | some j =>
      cases j with
      | arr l =>
        have hl : l = [] := h l hit
        subst hl
        rfl
      | null => rfl
      | bool b => rfl
      | num n => rfl
      | str t => rfl
      | obj kvs => rfl

/-- Witness for C4: unparseable JSON text yields an unchanged counter 7 and
no output. -/
theorem c4_bad_json_skips_witness :
    process_shelf_tags_row (fun _ => none) (fun _ => Except.error PyError.badZipFile)
      (fun _ _ => none) [("Z", "u"), ("J", "notjson")] "Z" "J" 7 = .ok ⟨7, []⟩ := by
  exact c4_bad_json_skips _ _ _ _ _ _ _ (fun l hl => by
    have heval : safe_json_loads (fun _ => none)
        (get_field_value [("Z", "u"), ("J", "notjson")] "J") = none := rfl
    rw [heval] at hl
    simp at hl)

/-! ### C5: absent download or empty archive skips the row -/

/-- C5: if the fetcher returns absent for the row's archive URL, or the
decoded archive yields no entries, the row processor returns the starting
counter and writes no images and no metadata lines. -/
theorem c5_absent_or_empty_archive_skips (parse : String → Option Json)
    (zipMembers : Bytes → Except PyError (List (String × Bytes)))
    (net : String → Nat → Option Bytes)
    (row : List (String × String)) (zf jf : String) (s : Int)
    (h : (download_bytes (net (row_zip_url row zf)) download_default_retries).1 = none ∨
      ∃ b, (download_bytes (net (row_zip_url row zf)) download_default_retries).1 = some b ∧
        extract_zip_entries zipMembers b = Except.ok []) :
    process_shelf_tags_row parse zipMembers net row zf jf s = .ok ⟨s, []⟩ := by
  unfold process_shelf_tags_row process_row_items
  by_cases hz : row_zip_url row zf = ""
  · rw [if_pos hz]
  · rw [if_neg hz]
    cases hit : safe_json_loads parse (get_field_value row jf) with
    | none => rfl
    | some j =>
      cases j with
      | null => rfl
      | bool b => rfl
      | num n => rfl
      | str t => rfl
      | obj kvs => rfl
      | arr l =>
        dsimp only
        by_cases hl : l.isEmpty = true
        · rw [if_pos hl]
        · rw [if_neg hl]
          cases hd : (download_bytes (net (row_zip_url row zf)) download_default_retries).1 with
          | none => rfl
          | some zb =>
            dsimp only
            rcases h with h | ⟨b, hb, hex⟩
            · rw [hd] at h
              exact Option.noConfusion h
            · rw [hd] at hb
              injection hb with hb
              subst hb
              by_cases hzb : zb.isEmpty = true
              · rw [if_pos hzb]
              · rw [if_neg hzb, hex]
                rfl

/-- Witness for C5: a URL whose every download attempt fails gives back the
starting counter 3 with no output. -/
theorem c5_absent_or_empty_archive_skips_witness :
    process_shelf_tags_row (fun _ => some (Json.arr [Json.null]))
      (fun _ => Except.error PyError.badZipFile) (fun _ _ => none)
      [("Z", "u"), ("J", "x")] "Z" "J" 3 = .ok ⟨3, []⟩ := by
  exact c5_absent_or_empty_archive_skips _ _ _ _ _ _ _ (Or.inl rfl)

/-! ### C2: missing/null/empty/all-zero barcodes are excluded -/

theorem item_barcode_bad (fields : List (String × Json))
    (hbad : fields.lookup "barcode" = none ∨ fields.lookup "barcode" = some Json.null ∨
      fields.lookup "barcode" = some (Json.str "null") ∨
      ∃ v, fields.lookup "barcode" = some v ∧
        (pyStrip (pyStr v) = "" ∨ is_all_zeros (pyStrip (pyStr v)) = true)) :
    item_barcode fields = "" ∨ is_all_zeros (item_barcode fields) = true := by
  unfold item_barcode
  rcases hbad with h | h | h | ⟨v, hv, hb⟩
  · rw [h]
    exact Or.inl rfl
  · rw [h]
    exact Or.inl rfl
  · rw [h]
    exact Or.inl (by simp)
  · rw [hv]
    cases v with
    | null => exact Or.inl rfl
    | str s =>
      by_cases hs : s = "null"
      · subst hs
        exact Or.inl (by simp)
      · have hred : (match some (Json.str s) with
            | none => ""
            | some Json.null => ""
            | some (Json.str t) => if t = "null" then "" else pyStrip t
            | some v => pyStrip (pyStr v)) = pyStrip s := by
          simp [hs]
        rw [hred]
        exact hb
    | bool b => exact hb
    | num n => exact hb
    | arr l => exact hb
    | obj kvs => exact hb

theorem except_bind_ok {ε α β : Type} (a : α) (f : α → Except ε β) :
    (Except.ok a >>= f) = f a := rfl

theorem except_bind_error {ε α β : Type} (e : ε) (f : α → Except ε β) :
    ((Except.error e : Except ε α) >>= f) = Except.error e := rfl

theorem match_item_bad_barcode (fields : List (String × Json)) (m : List (String × Meta))
    (hbad : item_barcode fields = "" ∨ is_all_zeros (item_barcode fields) = true) :
    match_item m (Json.obj fields) = .ok m ∨ ∃ e, match_item m (Json.obj fields) = .error e := by
  have heq : match_item m (Json.obj fields) =
      (match item_filename fields with
       | .error e => .error e
       | .ok filename =>
         if filename = "" then .ok m
         else if item_barcode fields = "" then .ok m
         else if is_all_zeros (item_barcode fields) = true then .ok m
         else
           match item_source fields with
           | .error e => .error e
           | .ok source => .ok (dictInsert m filename ⟨item_barcode fields, source⟩)) := rfl
  rw [heq]
  cases hf : item_filename fields with
  | error e => exact Or.inr ⟨e, rfl⟩
  | ok filename =>
    dsimp only
    by_cases hfe : filename = ""
    · exact Or.inl (by rw [if_pos hfe])
    · left
      rw [if_neg hfe]
      by_cases h1 : item_barcode fields = ""
      · rw [if_pos h1]
      · rcases hbad with hb | hb
        · exact absurd hb h1
        · rw [if_neg h1, if_pos hb]

theorem build_insert_bad (pre post : List Json) (fields : List (String × Json))
    (hbad : item_barcode fields = "" ∨ is_all_zeros (item_barcode fields) = true) :
    build_filename_to_meta (pre ++ Json.obj fields :: post) = build_filename_to_meta (pre ++ post)
      ∨ ∃ e, build_filename_to_meta (pre ++ Json.obj fields :: post) = .error e := by
  unfold build_filename_to_meta
  rw [List.foldlM_append, List.foldlM_append]
  cases hp : List.foldlM match_item [] pre with
  | error e =>
    left
    rfl
  | ok m =>
    rcases match_item_bad_barcode fields m hbad with hok | ⟨e, he⟩
    · left
      simp only [except_bind_ok, List.foldlM_cons, hok]
    · right
      refine ⟨e, ?_⟩
      simp only [except_bind_ok, List.foldlM_cons, he, except_bind_error]

theorem process_insert_bad (zipMembers : Bytes → Except PyError (List (String × Bytes)))
    (net : String → Nat → Option Bytes) (url : String) (s : Int)
    (pre post : List Json) (fields : List (String × Json))
    (hbad : item_barcode fields = "" ∨ is_all_zeros (item_barcode fields) = true) :
    process_row_items zipMembers net url (some (Json.arr (pre ++ Json.obj fields :: post))) s
      = process_row_items zipMembers net url (some (Json.arr (pre ++ post))) s
    ∨ ∃ e, process_row_items zipMembers net url
        (some (Json.arr (pre ++ Json.obj fields :: post))) s = .error e := by
  unfold process_row_items
  by_cases hz : url = ""
  · left
    rw [if_pos hz, if_pos hz]
  · rw [if_neg hz, if_neg hz]
    dsimp only
    rw [if_neg (c := (pre ++ Json.obj fields :: post).isEmpty = true) (by simp)]
    cases hd : (download_bytes (net url) download_default_retries).1 with
    | none =>
      left
      by_cases hpp : (pre ++ post).isEmpty = true
      · rw [if_pos hpp]
      · rw [if_neg hpp]
    | some zb =>
      by_cases hzb : zb.isEmpty = true
      · left
        by_cases hpp : (pre ++ post).isEmpty = true
        · rw [if_pos hpp]
          dsimp only
          rw [if_pos hzb]
        · rw [if_neg hpp]
          dsimp only
          rw [if_pos hzb, if_pos hzb]
      · cases hx : extract_zip_entries zipMembers zb with
        | error e =>
          right
          refine ⟨e, ?_⟩
          dsimp only
          rw [if_neg hzb, hx]
        | ok entries =>
          by_cases hee : entries.isEmpty = true
          · left
            by_cases hpp : (pre ++ post).isEmpty = true
            · rw [if_pos hpp]
              dsimp only
              rw [if_neg hzb, hx]
              dsimp only
              rw [if_pos hee]
            · rw [if_neg hpp]
              dsimp only
              rw [if_neg hzb, if_neg hzb, hx]
              dsimp only
              rw [if_pos hee, if_pos hee]
          · rcases build_insert_bad pre post fields hbad with hbld | ⟨e, hbld⟩
            · left
              by_cases hpp : (pre ++ post).isEmpty = true
              · have hpre : pre = [] := by
                  cases pre with
                  | nil => rfl
                  | cons a l => simp at hpp
                have hpost : post = [] := by
                  subst hpre
                  cases post with
                  | nil => rfl
                  | cons a l => simp at hpp
                subst hpre
                subst hpost
                rw [if_pos hpp]
                dsimp only
                rw [if_neg hzb, hx]
                dsimp only
                rw [if_neg hee]
                have hb0 : build_filename_to_meta (([] : List Json) ++ Json.obj fields :: [])
                    = Except.ok [] := by
                  rw [hbld]
                  rfl
                rw [hb0]
                rfl
              · rw [if_neg hpp]
                dsimp only
                rw [if_neg hzb, if_neg hzb, hx]
                dsimp only
                rw [if_neg hee, if_neg hee, hbld]
            · right
              refine ⟨e, ?_⟩
              dsimp only
              rw [if_neg hzb, hx]
              dsimp only
              rw [if_neg hee, hbld]

/-- C2: a metadata element whose barcode is missing, JSON null, the string
`"null"`, empty after stripping, or all `'0'` characters contributes no
entry to the filename-to-metadata mapping and no image or metadata line to
the row output, whatever its `barcode_detection_source` is: the matching
step leaves the mapping unchanged (or aborts the whole row with an
exception before anything is written, when its filename field raises). -/
theorem c2_bad_barcode_excluded (fields : List (String × Json)) (pre post : List Json)
    (zipMembers : Bytes → Except PyError (List (String × Bytes)))
    (net : String → Nat → Option Bytes) (url : String) (s : Int)
    (hbad : fields.lookup "barcode" = none ∨ fields.lookup "barcode" = some Json.null ∨
      fields.lookup "barcode" = some (Json.str "null") ∨
      ∃ v, fields.lookup "barcode" = some v ∧
        (pyStrip (pyStr v) = "" ∨ is_all_zeros (pyStrip (pyStr v)) = true)) :
    (∀ m, match_item m (Json.obj fields) = .ok m ∨
      ∃ e, match_item m (Json.obj fields) = .error e) ∧
    (build_filename_to_meta (pre ++ Json.obj fields :: post)
        = build_filename_to_meta (pre ++ post) ∨
      ∃ e, build_filename_to_meta (pre ++ Json.obj fields :: post) = .error e) ∧
    (process_row_items zipMembers net url (some (Json.arr (pre ++ Json.obj fields :: post))) s
        = process_row_items zipMembers net url (some (Json.arr (pre ++ post))) s ∨
      ∃ e, process_row_items zipMembers net url
          (some (Json.arr (pre ++ Json.obj fields :: post))) s = .error e) := by
  have hb := item_barcode_bad fields hbad
  exact ⟨fun m => match_item_bad_barcode fields m hb,
    build_insert_bad pre post fields hb,
    process_insert_bad zipMembers net url s pre post fields hb⟩

/-- Witness for C2: an element with barcode `"000"` and a present non-empty
source adds nothing to the mapping. -/
theorem c2_bad_barcode_excluded_witness :
    match_item [] (Json.obj
        [("uploaded_image", Json.obj [("image_filename", Json.str "a1.jpg")]),
         ("barcode", Json.str "000"),
         ("barcode_detection_source", Json.str "ocr")])
      = .ok [] ∨
    ∃ e, match_item [] (Json.obj
        [("uploaded_image", Json.obj [("image_filename", Json.str "a1.jpg")]),
         ("barcode", Json.str "000"),
         ("barcode_detection_source", Json.str "ocr")])
      = .error e := by
  exact (c2_bad_barcode_excluded
    [("uploaded_image", Json.obj [("image_filename", Json.str "a1.jpg")]),
     ("barcode", Json.str "000"),
     ("barcode_detection_source", Json.str "ocr")]
    [] [] (fun _ => Except.error PyError.badZipFile) (fun _ _ => none) "" 0
    (Or.inr (Or.inr (Or.inr ⟨Json.str "000", rfl, Or.inr rfl⟩)))).1 []

/-! ### C10: a non-string detection source raises and aborts the row -/

/-- Metadata element with a valid filename and barcode but a numeric
`barcode_detection_source`. -/
def c10Item : Json := Json.obj
  [("uploaded_image", Json.obj [("image_filename", Json.str "a1.jpg")]),
   ("barcode", Json.str "5"),
   ("barcode_detection_source", Json.num 5)]

/-- C10: on a metadata list whose element has a non-empty filename, a valid
non-zero barcode, and a numeric (non-null, non-string)
`barcode_detection_source`, the matching step raises `AttributeError` from
`.strip()` instead of producing a mapping, and the whole row aborts with
that exception (nothing is written). -/
theorem c10_non_string_source_raises :
    build_filename_to_meta [c10Item] = .error (PyError.attributeError "strip") ∧
    process_shelf_tags_row
      (fun _ => some (Json.arr [c10Item]))
      (fun _ => Except.ok [("a1.jpg", [7])])
      (fun _ _ => some [7])
      [("Z", "u"), ("J", "m")] "Z" "J" 0
      = .error (PyError.attributeError "strip") := by
  exact ⟨rfl, rfl⟩

/-! ### C1: deterministic processing order -/

theorem pyCharsLE_total : ∀ x y : List Char, pyCharsLE x y = true ∨ pyCharsLE y x = true := by
  intro x
  induction x with
  | nil => intro y; exact Or.inl rfl
  | cons a arest ih =>
    intro y
    cases y with
    | nil => exact Or.inr rfl
    | cons b brest =>
      simp only [pyCharsLE]
      rcases Nat.lt_trichotomy a.toNat b.toNat with h | h | h
      · left
        rw [if_pos h]
      · rcases ih brest with h2 | h2
        · left
          rw [if_neg (by omega), if_pos h]
          exact h2
        · right
          rw [if_neg (by omega), if_pos h.symm]
          exact h2
      · right
        rw [if_pos h]

theorem pyCharsLE_trans : ∀ x y z : List Char,
    pyCharsLE x y = true → pyCharsLE y z = true → pyCharsLE x z = true := by
  intro x
  induction x with
  | nil => intro y z _ _; rfl
  | cons a arest ih =>
    intro y z hxy hyz
    cases y with
    | nil => simp [pyCharsLE] at hxy
    | cons b brest =>
      cases z with
      | nil => simp [pyCharsLE] at hyz
      | cons c crest =>
        simp only [pyCharsLE] at hxy hyz ⊢
        by_cases hab : a.toNat < b.toNat
        · by_cases hbc : b.toNat < c.toNat
          · rw [if_pos (by omega)]
          · by_cases hbc2 : b.toNat = c.toNat
            · rw [if_pos (by omega)]
            · rw [if_neg hbc, if_neg hbc2] at hyz
              simp at hyz
        · by_cases hab2 : a.toNat = b.toNat
          · rw [if_neg hab, if_pos hab2] at hxy
            by_cases hbc : b.toNat < c.toNat
            · rw [if_pos (by omega)]
            · by_cases hbc2 : b.toNat = c.toNat
              · rw [if_neg hbc, if_pos hbc2] at hyz
                rw [if_neg (by omega), if_pos (by omega)]
                exact ih brest crest hxy hyz
              · rw [if_neg hbc, if_neg hbc2] at hyz
                simp at hyz
          · rw [if_neg hab, if_neg hab2] at hxy
            simp at hxy

theorem keyLE_iff (a b : Nat × String) :
    keyLE a b = true ↔ a.1 < b.1 ∨ (a.1 = b.1 ∧ pyStrLE a.2 b.2 = true) := by
  simp [keyLE, Bool.or_eq_true, Bool.and_eq_true, decide_eq_true_eq]

instance nameLE_total : IsTotal String nameLE := by
  constructor
  intro a b
  unfold nameLE
  rw [keyLE_iff, keyLE_iff]
  rcases Nat.lt_trichotomy (sort_key a).1 (sort_key b).1 with h | h | h
  · exact Or.inl (Or.inl h)
  · rcases pyCharsLE_total (sort_key a).2.data (sort_key b).2.data with h2 | h2
    · exact Or.inl (Or.inr ⟨h, h2⟩)
    · exact Or.inr (Or.inr ⟨h.symm, h2⟩)
  · exact Or.inr (Or.inl h)

instance nameLE_trans : IsTrans String nameLE := by
  constructor
  intro a b c hab hbc
  unfold nameLE at hab hbc ⊢
  rw [keyLE_iff] at hab hbc ⊢
  rcases hab with h1 | ⟨h1, h1s⟩ <;> rcases hbc with h2 | ⟨h2, h2s⟩
  · exact Or.inl (by omega)
  · exact Or.inl (by omega)
  · exact Or.inl (by omega)
  · exact Or.inr ⟨by omega, pyCharsLE_trans _ _ _ h1s h2s⟩

/-- C1 counterexample: `"z1000000000.jpg"` has the numeric suffix `10 ^ 9`
(equal to the sentinel key of unnumbered filenames), and the unnumbered
`"b.jpg"` is processed before it — so a filename without a numeric suffix
does not always sort after all numbered ones. -/
theorem c1_counterexample :
    parse_int_suffix_from_filename "z1000000000.jpg" = some 1000000000 ∧
    parse_int_suffix_from_filename "b.jpg" = none ∧
    sorted_filenames ["z1000000000.jpg", "b.jpg"] = ["b.jpg", "z1000000000.jpg"] := by
  refine ⟨by decide, by decide, by decide⟩

/-- C1 (amended): the processing order is the matched filenames sorted by
the key `(numeric suffix if present, else the sentinel 10^9; then the
filename text)`; hence a filename whose numeric suffix is strictly below
`10^9` sorts before every filename without a suffix (ties broken by text),
and for `["img_2.jpg", "img_10.jpg", "cover.jpg"]` the order is
`img_2.jpg, img_10.jpg, cover.jpg`; but a filename whose suffix is at least
`10^9` may sort at or after unnumbered filenames. -/
theorem c1_amended_order (names : List String) :
    (sorted_filenames names).Perm names ∧
    List.Sorted nameLE (sorted_filenames names) ∧
    (∀ i j n (hi : i < (sorted_filenames names).length)
        (hj : j < (sorted_filenames names).length),
      parse_int_suffix_from_filename ((sorted_filenames names).get ⟨i, hi⟩) = none →
      parse_int_suffix_from_filename ((sorted_filenames names).get ⟨j, hj⟩) = some n →
      n < 10 ^ 9 → j < i) ∧
    sorted_filenames ["img_2.jpg", "img_10.jpg", "cover.jpg"]
      = ["img_2.jpg", "img_10.jpg", "cover.jpg"] := by
  refine ⟨List.perm_insertionSort nameLE names, List.sorted_insertionSort nameLE names, ?_,
    by decide⟩
  intro i j n hi hj hnone hsome hlt
  by_contra hcon
  push_neg at hcon
  have hij : i ≠ j := by
    intro h
    subst h
    exact Option.noConfusion (hnone.symm.trans hsome)
  have hlt2 : i < j := by omega
  have hrel := (List.sorted_insertionSort nameLE names).rel_get_of_lt
    (a := ⟨i, hi⟩) (b := ⟨j, hj⟩) (Fin.mk_lt_mk.mpr hlt2)
  have hrel2 : keyLE (sort_key ((sorted_filenames names).get ⟨i, hi⟩))
      (sort_key ((sorted_filenames names).get ⟨j, hj⟩)) = true := hrel
  rw [keyLE_iff] at hrel2
  have h1 : (sort_key ((sorted_filenames names).get ⟨i, hi⟩)).1 = 10 ^ 9 := by
    unfold sort_key
    rw [hnone]
    rfl
  have h2 : (sort_key ((sorted_filenames names).get ⟨j, hj⟩)).1 = n := by
    unfold sort_key
    rw [hsome]
    rfl
  rcases hrel2 with h | ⟨h, _⟩
  · rw [h1, h2] at h
    omega
  · rw [h1, h2] at h
    omega

/-- Witness for C1 (amended): in `["cover.jpg", "img_2.jpg"]` the numbered
file (suffix 2, below the sentinel) ends up at position 0, before the
unnumbered one at position 1, and the output is a permutation of the
input. -/
theorem c1_amended_order_witness :
    (0 : Nat) < 1 ∧ (sorted_filenames ["cover.jpg", "img_2.jpg"]).Perm
      ["cover.jpg", "img_2.jpg"] := by
  constructor
  · exact (c1_amended_order ["cover.jpg", "img_2.jpg"]).2.2.1 1 0 2 (by decide) (by decide)
      (by decide) (by decide) (by decide)
  · exact (c1_amended_order ["cover.jpg", "img_2.jpg"]).1

/-! ### Decimal rendering is injective -/

theorem decimalDigitsAux_lt_ten : ∀ (fuel n d : Nat), d ∈ decimalDigitsAux fuel n → d < 10 := by
  intro fuel
  induction fuel with
  | zero =>
    intro n d hd
    cases n with
    | zero => simp [decimalDigitsAux] at hd
    | succ m => simp [decimalDigitsAux] at hd
  | succ f ih =>
    intro n d hd
    cases n with
    | zero => simp [decimalDigitsAux] at hd
    | succ m =>
      simp only [decimalDigitsAux, List.mem_cons] at hd
      rcases hd with h | h
      · omega
      · exact ih _ _ h

theorem decode_decimalDigitsAux : ∀ (fuel n : Nat), n ≤ fuel →
    List.foldr (fun d acc => d + 10 * acc) 0 (decimalDigitsAux fuel n) = n := by
  intro fuel
  induction fuel with
  | zero =>
    intro n h
    have : n = 0 := by omega
    subst this
    rfl
  | succ f ih =>
    intro n h
    cases n with
    | zero => rfl
    | succ m =>
      simp only [decimalDigitsAux, List.foldr_cons]
      rw [ih ((m + 1) / 10) (by omega)]
      omega

theorem digitChar_toNat_sub (d : Nat) (h : d < 10) : (Nat.digitChar d).toNat - 48 = d := by
  interval_cases d <;> rfl

theorem digitChar_ne_dash (d : Nat) (h : d < 10) : Nat.digitChar d ≠ '-' := by
  interval_cases d <;> decide

/-- Decoder used to show the decimal rendering injective. -/
def decodeDecimalChars (cs : List Char) : Nat :=
  List.foldr (fun d acc => d + 10 * acc) 0 (cs.reverse.map (fun c => c.toNat - 48))

theorem decode_natDecimalChars (n : Nat) : decodeDecimalChars (natDecimalChars n) = n := by
  unfold decodeDecimalChars natDecimalChars
  by_cases h : n = 0
  · subst h
    rfl
  · rw [if_neg h, List.reverse_reverse, List.map_map]
    have hmap : (decimalDigits n).map ((fun c => c.toNat - 48) ∘ Nat.digitChar)
        = (decimalDigits n).map id := by
      apply List.map_congr_left
      intro d hd
      exact digitChar_toNat_sub d (decimalDigitsAux_lt_ten n n d hd)
    rw [hmap, List.map_id]
    exact decode_decimalDigitsAux n n (Nat.le_refl n)

theorem natDecimalChars_inj {a b : Nat} (h : natDecimalChars a = natDecimalChars b) : a = b := by
  have ha := decode_natDecimalChars a
  rw [h, decode_natDecimalChars b] at ha
  exact ha.symm

theorem dash_not_mem_natDecimalChars (n : Nat) : ¬('-' ∈ natDecimalChars n) := by
  unfold natDecimalChars
  by_cases h : n = 0
  · subst h
    simp
  · rw [if_neg h]
    intro hmem
    rw [List.mem_reverse] at hmem
    rcases List.mem_map.mp hmem with ⟨d, hd, hdc⟩
    exact digitChar_ne_dash d (decimalDigitsAux_lt_ten n n d hd) hdc

theorem intDecimalChars_inj : ∀ {a b : Int}, intDecimalChars a = intDecimalChars b → a = b := by
  intro a b h
  cases a with
  | ofNat m =>
    cases b with
    | ofNat k => exact congrArg Int.ofNat (natDecimalChars_inj h)
    | negSucc k =>
      have hmem : '-' ∈ natDecimalChars m := by
        rw [show natDecimalChars m = intDecimalChars (Int.ofNat m) from rfl, h]
        exact List.mem_cons_self '-' _
      exact absurd hmem (dash_not_mem_natDecimalChars m)
  | negSucc m =>
    cases b with
    | ofNat k =>
      have hmem : '-' ∈ natDecimalChars k := by
        rw [show natDecimalChars k = intDecimalChars (Int.ofNat k) from rfl, ← h]
        exact List.mem_cons_self '-' _
      exact absurd hmem (dash_not_mem_natDecimalChars k)
    | negSucc k =>
      simp only [intDecimalChars, List.cons.injEq, true_and] at h
      have h2 := natDecimalChars_inj h
      have h3 : m = k := by omega
      subst h3
      rfl

theorem pyIntStr_inj {a b : Int} (h : pyIntStr a = pyIntStr b) : a = b :=
  intDecimalChars_inj (congrArg String.data h)

theorem numName_inj {a b : Int} (h : numName a = numName b) : a = b := by
  have h2 : intDecimalChars a ++ ".heif".data = intDecimalChars b ++ ".heif".data :=
    congrArg String.data h
  exact intDecimalChars_inj (List.append_cancel_right h2)

/-! ### The write loop: counter increments and output names -/

/-- The consecutive output names `numName (c+1), ..., numName (c+k)`. -/
def numNamesFrom (c : Int) : Nat → List String
  | 0 => []
  | k + 1 => numName (c + 1) :: numNamesFrom (c + 1) k

theorem numNamesFrom_getElem : ∀ (k : Nat) (c : Int) (i : Nat), i < k →
    (numNamesFrom c k)[i]? = some (numName (c + 1 + i)) := by
  intro k
  induction k with
  | zero => intro c i hi; omega
  | succ m ih =>
    intro c i hi
    cases i with
    | zero =>
      simp [numNamesFrom]
    | succ t =>
      simp only [numNamesFrom, List.getElem?_cons_succ]
      rw [ih (c + 1) t (by omega)]
      congr 2
      push_cast
      ring

theorem numNamesFrom_append : ∀ (a b : Nat) (c : Int),
    numNamesFrom c (a + b) = numNamesFrom c a ++ numNamesFrom (c + a) b := by
  intro a
  induction a with
  | zero =>
    intro b c
    simp [numNamesFrom]
  | succ m ih =>
    intro b c
    have hshape : m + 1 + b = (m + b) + 1 := by omega
    rw [hshape]
    simp only [numNamesFrom, List.cons_append]
    rw [ih b (c + 1)]
    have harg : c + 1 + (m : Int) = c + ((m : Nat) + 1 : Nat) := by
      push_cast
      ring
    rw [harg]

/-- Recover the indexed form of the naming invariant from the map form. -/
theorem names_from_map {l : List Saved} {c : Int}
    (h : l.map (fun v => v.imageName) = numNamesFrom c l.length) :
    ∀ i (hi : i < l.length), (l.get ⟨i, hi⟩).imageName = numName (c + 1 + i) := by
  intro i hi
  have h1 : (l.map (fun v => v.imageName))[i]? = some ((l.get ⟨i, hi⟩).imageName) := by
    rw [List.getElem?_map, List.getElem?_eq_getElem hi]
    rfl
  rw [h, numNamesFrom_getElem l.length c i hi] at h1
  exact (Option.some.inj h1).symm

theorem write_images_counter (entries : List (String × Bytes)) (fmeta : List (String × Meta)) :
    ∀ (names : List String) (c : Int),
      (write_images entries fmeta names c).1
        = c + (write_images entries fmeta names c).2.length := by
  intro names
  induction names with
  | nil => intro c; simp [write_images]
  | cons f rest ih =>
    intro c
    cases hl : entries.lookup f with
    | none =>
      simp only [write_images, hl]
      exact ih c
    | some bytes =>
      simp only [write_images, hl, List.length_cons]
      have h1 := ih (c + 1)
      omega

theorem write_images_names (entries : List (String × Bytes)) (fmeta : List (String × Meta)) :
    ∀ (names : List String) (c : Int),
      (write_images entries fmeta names c).2.map (fun v => v.imageName)
        = numNamesFrom c (write_images entries fmeta names c).2.length := by
  intro names
  induction names with
  | nil => intro c; rfl
  | cons f rest ih =>
    intro c
    cases hl : entries.lookup f with
    | none =>
      simp only [write_images, hl]
      exact ih c
    | some bytes =>
      simp only [write_images, hl, List.map_cons, List.length_cons]
      rw [ih (c + 1)]
      rfl

/-- Any skip-shaped row result satisfies the counter/name spec. -/
theorem rowresult_trivial_spec (s : Int) (r : RowResult) (h : RowResult.mk s [] = r) :
    r.counterEnd = s + r.saved.length ∧
    r.saved.map (fun v => v.imageName) = numNamesFrom s r.saved.length := by
  subst h
  exact ⟨by simp, rfl⟩

/-- A successful `process_shelf_tags_row` call advances the counter by
exactly the number of images saved and names them consecutively. -/
theorem process_ok_spec (parse : String → Option Json)
    (zipMembers : Bytes → Except PyError (List (String × Bytes)))
    (net : String → Nat → Option Bytes)
    (row : List (String × String)) (zf jf : String) (s : Int) (r : RowResult)
    (h : process_shelf_tags_row parse zipMembers net row zf jf s = .ok r) :
    r.counterEnd = s + r.saved.length ∧
    r.saved.map (fun v => v.imageName) = numNamesFrom s r.saved.length := by
  unfold process_shelf_tags_row process_row_items at h
  by_cases hz : row_zip_url row zf = ""
  · rw [if_pos hz] at h
    exact rowresult_trivial_spec s r (by injection h)
  · rw [if_neg hz] at h
    cases hit : safe_json_loads parse (get_field_value row jf) with
    | none =>
      rw [hit] at h
      exact rowresult_trivial_spec s r (by injection h)
    | some j =>
      rw [hit] at h
      cases j with
      | null => exact rowresult_trivial_spec s r (by injection h)
      | bool b => exact rowresult_trivial_spec s r (by injection h)
      | num n => exact rowresult_trivial_spec s r (by injection h)
      | str t => exact rowresult_trivial_spec s r (by injection h)
      | obj kvs => exact rowresult_trivial_spec s r (by injection h)
      | arr l =>
        dsimp only at h
        by_cases hl : l.isEmpty = true
        · rw [if_pos hl] at h
          exact rowresult_trivial_spec s r (by injection h)
        · rw [if_neg hl] at h
          cases hd : (download_bytes (net (row_zip_url row zf)) download_default_retries).1 with
          | none =>
            rw [hd] at h
            exact rowresult_trivial_spec s r (by injection h)
          | some zb =>
            rw [hd] at h
            dsimp only at h
            by_cases hzb : zb.isEmpty = true
            · rw [if_pos hzb] at h
              exact rowresult_trivial_spec s r (by injection h)
            · rw [if_neg hzb] at h
              cases hx : extract_zip_entries zipMembers zb with
              | error e =>
                rw [hx] at h
                simp at h
              | ok entries =>
                rw [hx] at h
                dsimp only at h
                by_cases hee : entries.isEmpty = true
                · rw [if_pos hee] at h
                  exact rowresult_trivial_spec s r (by injection h)
                · rw [if_neg hee] at h
                  cases hb : build_filename_to_meta l with
                  | error e =>
                    rw [hb] at h
                    simp at h
                  | ok fmeta =>
                    rw [hb] at h
                    dsimp only at h
                    injection h with h
                    subst h
                    exact ⟨write_images_counter entries fmeta
                        (sorted_filenames (fmeta.map (fun kv => kv.1))) s,
                      write_images_names entries fmeta
                        (sorted_filenames (fmeta.map (fun kv => kv.1))) s⟩

/-- C3: for every successfully processed row, the number of metadata lines
appended equals the number of image files written and both equal
`counter_end - counter_start`; line `i` is the line of image `i`, of the
form `"<barcode>, <source>\n"`, and the images are numbered in list
order. -/
theorem c3_lines_match_images (parse : String → Option Json)
    (zipMembers : Bytes → Except PyError (List (String × Bytes)))
    (net : String → Nat → Option Bytes)
    (row : List (String × String)) (zf jf : String) (s : Int) (r : RowResult)
    (h : process_shelf_tags_row parse zipMembers net row zf jf s = .ok r) :
    r.lines.length = r.images.length ∧
    (r.counterEnd - s : Int) = r.images.length ∧
    ∀ i (hi : i < r.saved.length),
      r.lines[i]? = some ((r.saved.get ⟨i, hi⟩).barcode ++ ", "
        ++ (r.saved.get ⟨i, hi⟩).source ++ "\n") ∧
      (r.saved.get ⟨i, hi⟩).imageName = numName (s + 1 + i) := by
  obtain ⟨hc, hn⟩ := process_ok_spec parse zipMembers net row zf jf s r h
  refine ⟨by simp [RowResult.lines, RowResult.images], ?_, ?_⟩
  · simp only [RowResult.images, List.length_map]
    omega
  · intro i hi
    refine ⟨?_, names_from_map hn i hi⟩
    simp only [RowResult.lines, List.getElem?_map, List.get_eq_getElem]
    rw [List.getElem?_eq_getElem hi]
    rfl

/-- Concrete row fixture: one matched image `a1.jpg` with barcode `"5"`
and source `"src"` behind URL field `Z` and JSON field `J`. -/
def exampleRow : List (String × String) := [("Z", " http://x/a.zip "), ("J", "meta")]

/-- Concrete JSON parser fixture for `exampleRow`. -/
def exampleParse : String → Option Json :=
  fun s => if s = "meta" then
    some (Json.arr [Json.obj
      [("uploaded_image", Json.obj [("image_filename", Json.str "a1.jpg")]),
       ("barcode", Json.str "5"),
       ("barcode_detection_source", Json.str "src")]])
  else none

/-- Concrete network fixture: every attempt returns the archive bytes. -/
def exampleNet : String → Nat → Option Bytes := fun _ _ => some [7, 8]

/-- Concrete archive fixture: one member `dir/a1.jpg`. -/
def exampleMembers : Bytes → Except PyError (List (String × Bytes)) :=
  fun _ => Except.ok [("dir/a1.jpg", [7])]

/-- Witness for C3: the concrete row saves one image and appends one line,
and the counter moves from 0 to 1. -/
theorem c3_lines_match_images_witness :
    (RowResult.mk 1 [⟨"a1.jpg", "1.heif", [7], "5", "src"⟩]).lines.length
      = (RowResult.mk 1 [⟨"a1.jpg", "1.heif", [7], "5", "src"⟩]).images.length ∧
    ((1 : Int) - 0
      = ((RowResult.mk 1 [⟨"a1.jpg", "1.heif", [7], "5", "src"⟩]).images.length : Int)) := by
  have h := c3_lines_match_images exampleParse exampleMembers exampleNet exampleRow "Z" "J" 0
    (RowResult.mk 1 [⟨"a1.jpg", "1.heif", [7], "5", "src"⟩]) rfl
  exact ⟨h.1, h.2.1⟩

/-! ### C8: monotone numbering across the whole run, no overwrites -/

theorem run_rows_spec (parse : String → Option Json)
    (zipMembers : Bytes → Except PyError (List (String × Bytes)))
    (net : String → Nat → Option Bytes)
    (zip_url_field json_field : String) (limit : Int) :
    ∀ (rows : List (List (String × String))) (idx processed : Nat) (c : Int),
      (run_rows (fun row c => process_shelf_tags_row parse zipMembers net row
          zip_url_field json_field c) limit rows idx processed c).1
        = c + ((run_rows (fun row c => process_shelf_tags_row parse zipMembers net row
            zip_url_field json_field c) limit rows idx processed c).2.1).length ∧
      ((run_rows (fun row c => process_shelf_tags_row parse zipMembers net row
          zip_url_field json_field c) limit rows idx processed c).2.1).map (fun v => v.imageName)
        = numNamesFrom c ((run_rows (fun row c => process_shelf_tags_row parse zipMembers net row
            zip_url_field json_field c) limit rows idx processed c).2.1).length := by
  intro rows
  induction rows with
  | nil =>
    intro idx processed c
    exact ⟨by simp [run_rows], rfl⟩
  | cons row rest ih =>
    intro idx processed c
    by_cases hlim : limit ≠ 0 ∧ limit ≤ (processed : Int)
    · simp only [run_rows, if_pos hlim]
      exact ⟨by simp, rfl⟩
    · simp only [run_rows, if_neg hlim]
      cases hp : process_shelf_tags_row parse zipMembers net row zip_url_field json_field c with
      | error e =>
        dsimp only
        exact ih (idx + 1) processed c
      | ok rr =>
        dsimp only
        obtain ⟨hc1, hm1⟩ :=
          process_ok_spec parse zipMembers net row zip_url_field json_field c rr hp
        obtain ⟨hc2, hm2⟩ := ih (idx + 1) (processed + 1) rr.counterEnd
        constructor
        · simp only [List.length_append]
          omega
        · simp only [List.map_append, List.length_append]
          rw [hm1, numNamesFrom_append, ← hc1, hm2]

/-- C8: every image written by a pipeline run starting at counter `s` is
named `numName n` for `n = s + 1 + i` at position `i`, with
`s < n ≤ c1 = s + (images written)`; re-running with start `c1` gives names
`numName (c1 + 1 + j)`, all numerically greater, and no output filename of
the second run equals any of the first (no overwrite). -/
theorem c8_monotone_counter_no_overwrite
    (parse1 : String → Option Json) (zip1 : Bytes → Except PyError (List (String × Bytes)))
    (net1 : String → Nat → Option Bytes) (rows1 : List (List (String × String)))
    (zf1 jf1 : String) (lim1 : Int) (s : Int)
    (parse2 : String → Option Json) (zip2 : Bytes → Except PyError (List (String × Bytes)))
    (net2 : String → Nat → Option Bytes) (rows2 : List (List (String × String)))
    (zf2 jf2 : String) (lim2 : Int)
    (c1 c2 : Int) (imgs1 imgs2 : List Saved) (errs1 errs2 : List (Nat × PyError))
    (h1 : run_pipeline parse1 zip1 net1 rows1 zf1 jf1 lim1 s = (c1, imgs1, errs1))
    (h2 : run_pipeline parse2 zip2 net2 rows2 zf2 jf2 lim2 c1 = (c2, imgs2, errs2)) :
    c1 = s + imgs1.length ∧
    (∀ i (hi : i < imgs1.length),
      (imgs1.get ⟨i, hi⟩).imageName = numName (s + 1 + i) ∧
        s < s + 1 + i ∧ s + 1 + i ≤ c1) ∧
    (∀ j (hj : j < imgs2.length), (imgs2.get ⟨j, hj⟩).imageName = numName (c1 + 1 + j)) ∧
    (∀ i (hi : i < imgs1.length) (j) (hj : j < imgs2.length),
      (imgs1.get ⟨i, hi⟩).imageName ≠ (imgs2.get ⟨j, hj⟩).imageName) := by
  have hs1 := run_rows_spec parse1 zip1 net1 zf1 jf1 lim1 rows1 0 0 s
  have hs2 := run_rows_spec parse2 zip2 net2 zf2 jf2 lim2 rows2 0 0 c1
  unfold run_pipeline at h1 h2
  rw [h1] at hs1
  rw [h2] at hs2
  dsimp only at hs1 hs2
  obtain ⟨hc1, hm1⟩ := hs1
  obtain ⟨hc2, hm2⟩ := hs2
  have hn1 := names_from_map hm1
  have hn2 := names_from_map hm2
  refine ⟨hc1, ?_, hn2, ?_⟩
  · intro i hi
    exact ⟨hn1 i hi, by omega, by omega⟩
  · intro i hi j hj
    rw [hn1 i hi, hn2 j hj]
    intro heq
    have hnum := numName_inj heq
    omega

/-- Witness for C8: a one-row pipeline starting at 0 writes `1.heif` and
ends at counter 1; re-run from 1 it writes `2.heif`, a different name. -/
theorem c8_monotone_counter_no_overwrite_witness :
    (1 : Int) = 0 + (([⟨"a1.jpg", "1.heif", [7], "5", "src"⟩] : List Saved).length : Int) ∧
    (([⟨"a1.jpg", "1.heif", [7], "5", "src"⟩] : List Saved).get ⟨0, by decide⟩).imageName
      ≠ (([⟨"a1.jpg", "2.heif", [7], "5", "src"⟩] : List Saved).get ⟨0, by decide⟩).imageName := by
  have h := c8_monotone_counter_no_overwrite exampleParse exampleMembers exampleNet [exampleRow]
    "Z" "J" 0 0 exampleParse exampleMembers exampleNet [exampleRow] "Z" "J" 0 1 2
    [⟨"a1.jpg", "1.heif", [7], "5", "src"⟩] [⟨"a1.jpg", "2.heif", [7], "5", "src"⟩] [] []
    rfl rfl
  exact ⟨h.1, h.2.2.2 0 (by decide) 0 (by decide)⟩

end ShelfTags
